import Mathlib

/-!
Verification of the chatshot messaging client against its specification.

The definitions below are shallow embeddings of the repository source:

* `src/unnamed/part_004` — the SQL function
  `public.get_or_create_private_conversation` (conversation resolver);
* `src/supabase/migrations/20251217023700_*.sql` — `is_world_chat` and the
  fixed world-chat id;
* `src/supabase/migrations/20260104101105_*.sql` — the `message_reactions`
  table with its `UNIQUE (message_id, user_id, emoji)` constraint;
* `src/src/pages/Chat.tsx` — `sendMessage` (media fan-out, reply linkage,
  conversation timestamp bump), `handleAddReaction`, `handleRemoveReaction`,
  `handleDeleteMessage`, and the realtime `messages` INSERT handler;
* `src/src/components/chat/MessageBubble.tsx` — message rendering and the
  soft-delete tombstone;
* `src/src/components/ChatList.tsx` — the conversation-list last-message
  preview line;
* `src/src/components/StoriesCarousel.tsx` — `fetchStories` and the tab
  visibility filter;
* `src/src/components/AccountSettings.tsx` — `updateCountdown` and
  `handleNameChange` (display-name cooldown).

Timestamps are modelled as natural numbers (milliseconds) where arithmetic
matters and as opaque strings where the code only stores them.  Database
tables are modelled as lists of rows; a transaction guarded by the
pairwise advisory lock (`pg_advisory_xact_lock`) is modelled as one atomic
step, so an arbitrarily concurrent workload on one user pair is an
arbitrary finite sequence of such atomic steps.
-/

namespace Chatshot

/-! ## Durable-store data model (from the SQL migrations) -/

/-- A row of `public.conversations`: `id UUID PRIMARY KEY`,
`is_group BOOLEAN DEFAULT false` (nullable, read through `COALESCE`).
From `src/supabase/migrations/20251211042636_*.sql`. -/
structure Conversation where
  id : String
  is_group : Option Bool
deriving DecidableEq, Repr

/-- A row of `public.conversation_participants` (the join entity):
`conversation_id`, `user_id`, `UNIQUE(conversation_id, user_id)`.
From `src/supabase/migrations/20251211042636_*.sql`. -/
structure Participant where
  conversation_id : String
  user_id : String
deriving DecidableEq, Repr

/-- The slice of the durable store the conversation resolver touches. -/
structure ConvState where
  conversations : List Conversation
  participants : List Participant
deriving DecidableEq, Repr

/-- `WORLD_CHAT_ID` — the fixed well-known id of the world conversation,
from `src/supabase/migrations/20251217023700_*.sql` and
`src/src/lib/constants`. -/
def WORLD_CHAT_ID : String := "00000000-0000-0000-0000-000000000001"

/-- `public.is_world_chat(conversation_id)`:
`SELECT conversation_id = '00000000-...-000000000001'::uuid`.
From `src/supabase/migrations/20251217023700_*.sql`. -/
def isWorldChat (conversation_id : String) : Bool :=
  conversation_id == WORLD_CHAT_ID

/-- `EXISTS` test used by the resolver joins: is `uid` a participant of
conversation `cid`?  (The `p1`/`p2` joins of `src/unnamed/part_004`.) -/
def isParticipantL (ps : List Participant) (cid uid : String) : Bool :=
  ps.any fun p => p.conversation_id == cid && p.user_id == uid

/-- The row predicate of the resolver lookup in `src/unnamed/part_004`
lines 51-62: both `self` and `other` are participants,
`COALESCE(c.is_group, false) = false`, and `NOT is_world_chat(c.id)`. -/
def privMatch (ps : List Participant) (self other : String) (c : Conversation) : Bool :=
  isParticipantL ps c.id self && isParticipantL ps c.id other &&
    (c.is_group.getD false == false) && !(isWorldChat c.id)

/-- The `SELECT ... LIMIT 1` lookup of `src/unnamed/part_004` lines 51-62. -/
def findPrivateConversation (s : ConvState) (self other : String) : Option String :=
  (s.conversations.find? (privMatch s.participants self other)).map (·.id)

/-- The advisory-lock key of `src/unnamed/part_004` lines 46-49:
`_a := LEAST(self, other); _b := GREATEST(self, other);`
`pg_advisory_xact_lock(hashtext(_a || ':' || _b))`.  The key is the string
the (deterministic) `hashtext` is applied to. -/
def lockKey (self other : String) : String :=
  min self other ++ ":" ++ max self other

/-- `public.get_or_create_private_conversation(_other_user_id)` from
`src/unnamed/part_004` lines 30-79, as one atomic step (the body runs in a
transaction holding the pairwise advisory lock).  `newId` stands for the
fresh `gen_random_uuid()`.  Returns the conversation id and the updated
store.  If the lookup finds a row its id is returned and nothing changes;
otherwise a conversation with `is_group = false` and both participant rows
are inserted. -/
def get_or_create_private_conversation (s : ConvState) (self other newId : String) :
    String × ConvState :=
  match findPrivateConversation s self other with
  | some cid => (cid, s)
  | none =>
      (newId,
        { conversations := s.conversations ++ [⟨newId, some false⟩],
          participants := s.participants ++ [⟨newId, self⟩, ⟨newId, other⟩] })

/-- All user ids participating in conversation `cid`. -/
def participantsOf (ps : List Participant) (cid : String) : List String :=
  (ps.filter fun p => p.conversation_id == cid).map (·.user_id)

/-- The participant set of `cid` is exactly `{A, B}`: both are members and
every member is `A` or `B`. -/
def pairExact (ps : List Participant) (cid A B : String) : Bool :=
  isParticipantL ps cid A && isParticipantL ps cid B &&
    (participantsOf ps cid).all fun u => u == A || u == B

/-- The non-group, non-world conversations having both `A` and `B` among
their participants (the rows the resolver lookup can return). -/
def privatePairConvs (s : ConvState) (A B : String) : List Conversation :=
  s.conversations.filter (privMatch s.participants A B)

/-- The non-group, non-world conversations whose participant set is
exactly `{A, B}` — the rows counted by the uniqueness guarantee. -/
def exactPairConvs (s : ConvState) (A B : String) : List Conversation :=
  s.conversations.filter fun c =>
    privMatch s.participants A B c && pairExact s.participants c.id A B

/-- `newId` is fresh for state `s`: no conversation row and no participant
row references it (the behaviour of `gen_random_uuid()`). -/
def freshId (s : ConvState) (cid : String) : Bool :=
  !(s.conversations.any fun c => c.id == cid) &&
    !(s.participants.any fun p => p.conversation_id == cid)

/-- One serialized resolver invocation for the pair `{A, B}`: direction
`true` is `resolve(A, B)` (caller `A`), `false` is `resolve(B, A)`. -/
def resolveStep (A B : String) (s : ConvState) (call : Bool × String) : ConvState :=
  if call.1 then (get_or_create_private_conversation s A B call.2).2
  else (get_or_create_private_conversation s B A call.2).2

/-- A workload of resolver invocations for the pair `{A, B}`.  Because
every invocation holds the order-independent pairwise advisory lock for
its whole transaction, an arbitrarily concurrent workload executes as
some such sequence. -/
def runCalls (A B : String) (s : ConvState) (calls : List (Bool × String)) : ConvState :=
  calls.foldl (resolveStep A B) s

/-! ## Resolver lemmas -/

theorem privMatch_symm (ps : List Participant) (A B : String) (c : Conversation) :
    privMatch ps A B c = privMatch ps B A c := by
  unfold privMatch
  cases isParticipantL ps c.id A <;> cases isParticipantL ps c.id B <;> rfl

theorem find?_congr_pred {α : Type} (p q : α → Bool) (h : ∀ a, p a = q a) :
    ∀ l : List α, l.find? p = l.find? q := by
  intro l
  induction l with
  | nil => rfl
  | cons a t ih => simp [List.find?_cons, h a, ih]

theorem findPrivateConversation_symm (s : ConvState) (A B : String) :
    findPrivateConversation s A B = findPrivateConversation s B A := by
  unfold findPrivateConversation
  rw [find?_congr_pred (privMatch s.participants A B) (privMatch s.participants B A)
    (privMatch_symm s.participants A B)]

theorem findPrivateConversation_eq_none (s : ConvState) (A B : String)
    (h : privatePairConvs s A B = []) : findPrivateConversation s A B = none := by
  unfold privatePairConvs at h
  rw [List.filter_eq_nil_iff] at h
  unfold findPrivateConversation
  rw [List.find?_eq_none.mpr h]
  rfl

theorem findPrivateConversation_isSome (s : ConvState) (A B : String)
    (h : privatePairConvs s A B ≠ []) :
    ∃ cid, findPrivateConversation s A B = some cid := by
  unfold findPrivateConversation
  cases hf : s.conversations.find? (privMatch s.participants A B) with
  | some c => exact ⟨c.id, rfl⟩
  | none =>
      exfalso
      apply h
      unfold privatePairConvs
      rw [List.filter_eq_nil_iff]
      exact fun a ha hpa => (List.find?_eq_none.mp hf a ha) hpa

/-- C2: `getOrCreatePrivateConversation(selfId, otherId)` follows the
specified algorithm.  The mutual-exclusion lock key (the string passed to
`hashtext` for `pg_advisory_xact_lock`) is order-independent in the user
pair; a returned lookup hit is a conversation in the store with both ids
among its participants, group flag false and not the world conversation,
and in that case the id is returned with the store unchanged (no new
rows); when the lookup misses, exactly one conversation row with
`is_group = false` and the two participant rows are appended and the new
id is returned. -/
theorem getOrCreate_follows_algorithm (s : ConvState) (self other newId : String) :
    lockKey self other = lockKey other self
    ∧ (∀ cid, findPrivateConversation s self other = some cid →
        (∃ c ∈ s.conversations, c.id = cid
          ∧ isParticipantL s.participants cid self = true
          ∧ isParticipantL s.participants cid other = true
          ∧ c.is_group.getD false = false
          ∧ isWorldChat c.id = false)
        ∧ get_or_create_private_conversation s self other newId = (cid, s))
    ∧ (findPrivateConversation s self other = none →
        get_or_create_private_conversation s self other newId =
          (newId,
            { conversations := s.conversations ++ [⟨newId, some false⟩],
              participants := s.participants ++ [⟨newId, self⟩, ⟨newId, other⟩] })) := by
  refine ⟨?_, ?_, ?_⟩
  · unfold lockKey
    rw [min_comm, max_comm]
  · intro cid hfind
    unfold findPrivateConversation at hfind
    cases hf : s.conversations.find? (privMatch s.participants self other) with
    | none => simp [hf] at hfind
    | some c =>
        rw [hf] at hfind
        simp only [Option.map_some', Option.some.injEq] at hfind
        have hmem : c ∈ s.conversations := List.mem_of_find?_eq_some hf
        have hmatch : privMatch s.participants self other c = true := List.find?_some hf
        unfold privMatch at hmatch
        simp only [Bool.and_eq_true, Bool.not_eq_eq_eq_not, Bool.not_true, beq_iff_eq] at hmatch
        obtain ⟨⟨⟨h1, h2⟩, h3⟩, h4⟩ := hmatch
        subst hfind
        refine ⟨⟨c, hmem, rfl, h1, h2, h3, h4⟩, ?_⟩
        unfold get_or_create_private_conversation findPrivateConversation
        rw [hf]
        rfl
  · intro hfind
    unfold get_or_create_private_conversation
    rw [hfind]

/-- Witness for `getOrCreate_follows_algorithm`: on the empty store the
lookup misses and the call creates the conversation and both participant
rows. -/
theorem getOrCreate_follows_algorithm_witness :
    get_or_create_private_conversation ⟨[], []⟩ "alice" "bob" "fresh" =
      ("fresh",
        { conversations := [⟨"fresh", some false⟩],
          participants := [⟨"fresh", "alice"⟩, ⟨"fresh", "bob"⟩] }) :=
  (getOrCreate_follows_algorithm ⟨[], []⟩ "alice" "bob" "fresh").2.2 rfl

theorem freshId_spec (s : ConvState) (nid : String) (h : freshId s nid = true) :
    (∀ c ∈ s.conversations, c.id ≠ nid) ∧ ∀ p ∈ s.participants, p.conversation_id ≠ nid := by
  unfold freshId at h
  simp only [Bool.and_eq_true, Bool.not_eq_eq_eq_not, Bool.not_true, List.any_eq_false,
    beq_iff_eq] at h
  exact h

theorem isParticipantL_append_fresh (ps : List Participant) (nid self other cid uid : String)
    (hcid : cid ≠ nid) :
    isParticipantL (ps ++ [⟨nid, self⟩, ⟨nid, other⟩]) cid uid = isParticipantL ps cid uid := by
  have hne : nid ≠ cid := fun h => hcid h.symm
  rw [Bool.eq_iff_iff]
  simp [isParticipantL, List.any_append, hne]

theorem privMatch_append_fresh (ps : List Participant) (nid self other A B : String)
    (c : Conversation) (hcid : c.id ≠ nid) :
    privMatch (ps ++ [⟨nid, self⟩, ⟨nid, other⟩]) A B c = privMatch ps A B c := by
  unfold privMatch
  rw [isParticipantL_append_fresh ps nid self other c.id A hcid,
    isParticipantL_append_fresh ps nid self other c.id B hcid]

theorem participantsOf_created (ps : List Participant) (nid self other : String)
    (hfp : ∀ p ∈ ps, p.conversation_id ≠ nid) :
    participantsOf (ps ++ [⟨nid, self⟩, ⟨nid, other⟩]) nid = [self, other] := by
  unfold participantsOf
  rw [List.filter_append]
  have hnil : ps.filter (fun p => p.conversation_id == nid) = [] :=
    List.filter_eq_nil_iff.mpr fun p hp => by simp [hfp p hp]
  rw [hnil]
  simp

theorem isParticipantL_created_left (ps : List Participant) (nid self other : String) :
    isParticipantL (ps ++ [⟨nid, self⟩, ⟨nid, other⟩]) nid self = true := by
  simp [isParticipantL, List.any_append]

theorem isParticipantL_created_right (ps : List Participant) (nid self other : String) :
    isParticipantL (ps ++ [⟨nid, self⟩, ⟨nid, other⟩]) nid other = true := by
  simp [isParticipantL, List.any_append]

/-- The store after the creation branch of the resolver ran with caller
`self`, callee `other` and fresh id `nid`. -/
def createdState (s : ConvState) (self other nid : String) : ConvState :=
  { conversations := s.conversations ++ [⟨nid, some false⟩],
    participants := s.participants ++ [⟨nid, self⟩, ⟨nid, other⟩] }

theorem privMatch_created_new (s : ConvState) (A B self other nid : String)
    (hdir : (self = A ∧ other = B) ∨ (self = B ∧ other = A))
    (hw : isWorldChat nid = false) :
    privMatch (createdState s self other nid).participants A B ⟨nid, some false⟩ = true := by
  unfold privMatch createdState
  rcases hdir with ⟨rfl, rfl⟩ | ⟨rfl, rfl⟩ <;>
    simp [isParticipantL_created_left, isParticipantL_created_right, hw]

theorem pairExact_created (s : ConvState) (A B self other nid : String)
    (hdir : (self = A ∧ other = B) ∨ (self = B ∧ other = A))
    (hfp : ∀ p ∈ s.participants, p.conversation_id ≠ nid) :
    pairExact (createdState s self other nid).participants nid A B = true := by
  unfold pairExact createdState
  rcases hdir with ⟨rfl, rfl⟩ | ⟨rfl, rfl⟩ <;>
    simp [isParticipantL_created_left, isParticipantL_created_right,
      participantsOf_created s.participants nid self other hfp]

theorem create_establishes (s : ConvState) (A B self other nid : String)
    (hdir : (self = A ∧ other = B) ∨ (self = B ∧ other = A))
    (h0 : privatePairConvs s A B = [])
    (hfc : ∀ c ∈ s.conversations, c.id ≠ nid)
    (hfp : ∀ p ∈ s.participants, p.conversation_id ≠ nid)
    (hw : isWorldChat nid = false) :
    get_or_create_private_conversation s self other nid = (nid, createdState s self other nid)
    ∧ privatePairConvs (createdState s self other nid) A B = [⟨nid, some false⟩]
    ∧ exactPairConvs (createdState s self other nid) A B = [⟨nid, some false⟩] := by
  have hnoneAB : findPrivateConversation s A B = none := findPrivateConversation_eq_none s A B h0
  have hnone : findPrivateConversation s self other = none := by
    rcases hdir with ⟨rfl, rfl⟩ | ⟨rfl, rfl⟩
    · exact hnoneAB
    · rw [findPrivateConversation_symm]; exact hnoneAB
  have hold : ∀ c ∈ s.conversations,
      privMatch (createdState s self other nid).participants A B c = false := by
    intro c hc
    unfold createdState
    rw [privMatch_append_fresh s.participants nid self other A B c (hfc c hc)]
    have := List.filter_eq_nil_iff.mp h0 c hc
    simpa using this
  have hnew : privMatch (createdState s self other nid).participants A B ⟨nid, some false⟩ = true :=
    privMatch_created_new s A B self other nid hdir hw
  refine ⟨?_, ?_, ?_⟩
  · unfold get_or_create_private_conversation
    rw [hnone]
    rfl
  · unfold privatePairConvs createdState
    rw [List.filter_append]
    have h1 : s.conversations.filter
        (privMatch (createdState s self other nid).participants A B) = [] :=
      List.filter_eq_nil_iff.mpr fun c hc => by simp [hold c hc]
    unfold createdState at h1
    rw [h1]
    simp only [List.nil_append]
    have hnew' := hnew
    unfold createdState at hnew'
    simp [List.filter_cons, hnew']
  · unfold exactPairConvs createdState
    rw [List.filter_append]
    have h1 : s.conversations.filter (fun c =>
        privMatch (createdState s self other nid).participants A B c &&
          pairExact (createdState s self other nid).participants c.id A B) = [] :=
      List.filter_eq_nil_iff.mpr fun c hc => by simp [hold c hc]
    unfold createdState at h1
    rw [h1]
    simp only [List.nil_append]
    have hnew' := hnew
    have hex := pairExact_created s A B self other nid hdir hfp
    unfold createdState at hnew' hex
    simp [List.filter_cons, hnew', hex]

theorem resolveStep_frozen (A B : String) (s : ConvState) (call : Bool × String)
    (h : privatePairConvs s A B ≠ []) : resolveStep A B s call = s := by
  obtain ⟨cid, hcid⟩ := findPrivateConversation_isSome s A B h
  have hBA : findPrivateConversation s B A = some cid := by
    rw [findPrivateConversation_symm]; exact hcid
  unfold resolveStep get_or_create_private_conversation
  cases call.1 <;> simp [hcid, hBA]

theorem runCalls_frozen (A B : String) (s : ConvState) (calls : List (Bool × String))
    (h : privatePairConvs s A B ≠ []) : runCalls A B s calls = s := by
  induction calls with
  | nil => rfl
  | cons c rest ih =>
      unfold runCalls
      rw [List.foldl_cons, resolveStep_frozen A B s c h]
      exact ih

/-- C1: for distinct users `A` and `B`, any nonempty sequence of
serialized `getOrCreatePrivateConversation` invocations for the pair —
from either direction, in any order (which is how arbitrary concurrency
plays out, since every invocation holds the order-independent pairwise
advisory lock for its whole transaction) — starting from a store with no
private conversation shared by `A` and `B` and using fresh non-world ids
for creation, ends in a store with exactly one non-group, non-world
conversation row whose participant set is exactly `{A, B}`. -/
theorem privateConversation_unique_under_concurrency
    (A B : String) (hAB : A ≠ B) (s : ConvState)
    (h0 : privatePairConvs s A B = [])
    (calls : List (Bool × String)) (hne : calls ≠ [])
    (hfresh : ∀ p ∈ calls, freshId s p.2 = true ∧ isWorldChat p.2 = false) :
    (exactPairConvs (runCalls A B s calls) A B).length = 1 := by
  match calls, hne with
  | (dir, nid) :: rest, _ =>
    obtain ⟨hf, hw⟩ := hfresh (dir, nid) (List.mem_cons_self _ _)
    obtain ⟨hfc, hfp⟩ := freshId_spec s nid hf
    have hstep : ∃ self other,
        ((self = A ∧ other = B) ∨ (self = B ∧ other = A)) ∧
          resolveStep A B s (dir, nid) = createdState s self other nid := by
      cases dir with
      | true =>
          refine ⟨A, B, Or.inl ⟨rfl, rfl⟩, ?_⟩
          unfold resolveStep
          simp only [if_pos]
          rw [(create_establishes s A B A B nid (Or.inl ⟨rfl, rfl⟩) h0 hfc hfp hw).1]
      | false =>
          refine ⟨B, A, Or.inr ⟨rfl, rfl⟩, ?_⟩
          unfold resolveStep
          simp only [Bool.false_eq_true, if_neg, if_false]
          rw [(create_establishes s A B B A nid (Or.inr ⟨rfl, rfl⟩) h0 hfc hfp hw).1]
    obtain ⟨self, other, hdir, hstepEq⟩ := hstep
    obtain ⟨-, hpriv, hexact⟩ := create_establishes s A B self other nid hdir h0 hfc hfp hw
    have hrun : runCalls A B s ((dir, nid) :: rest) = createdState s self other nid := by
      unfold runCalls
      rw [List.foldl_cons, hstepEq]
      have : privatePairConvs (createdState s self other nid) A B ≠ [] := by
        rw [hpriv]; simp
      exact runCalls_frozen A B (createdState s self other nid) rest this
    rw [hrun, hexact]
    rfl

/-- Witness for `privateConversation_unique_under_concurrency`: three
invocations for the pair (two from one direction, one from the other)
against the empty store leave exactly one private conversation for the
pair. -/
theorem privateConversation_unique_witness :
    (exactPairConvs
      (runCalls "alice" "bob" ⟨[], []⟩ [(true, "n1"), (false, "n2"), (true, "n3")])
      "alice" "bob").length = 1 :=
  privateConversation_unique_under_concurrency "alice" "bob" (by decide) ⟨[], []⟩ rfl
    [(true, "n1"), (false, "n2"), (true, "n3")] (by decide) (by decide)

/-! ## Reactions (Chat.tsx `handleAddReaction` / `handleRemoveReaction`,
migration `20260104101105_*`) -/

/-- A row of `public.message_reactions`:
`id uuid PRIMARY KEY`, `message_id`, `user_id`, `emoji`, with
`UNIQUE (message_id, user_id, emoji)`.
From `src/supabase/migrations/20260104101105_*.sql` lines 14-22. -/
structure ReactionRow where
  id : String
  message_id : String
  user_id : String
  emoji : String
deriving DecidableEq, Repr

/-- Does a reaction with this exact `(message, user, emoji)` triple exist?
This is what the `UNIQUE` constraint checks on insert and what the
`.eq(...).eq(...).eq(...)` filter of the delete matches. -/
def hasReaction (rs : List ReactionRow) (m u e : String) : Bool :=
  rs.any fun r => r.message_id == m && r.user_id == u && r.emoji == e

/-- Outcome of `handleAddReaction` as far as the reaction table is
concerned: either the row was inserted, or the insert hit the
duplicate-key conflict (Postgres error 23505), which the handler swallows
(`src/src/pages/Chat.tsx` lines 318-322: `// Already reacted with this
emoji, ignore`) — not an error. -/
inductive ReactOutcome where
  | inserted
  | alreadyPresent
deriving DecidableEq, Repr

/-- `handleAddReaction(messageId, emoji)` from `src/src/pages/Chat.tsx`
lines 309-327: insert `{message_id, user_id, emoji}`; a duplicate-key
conflict on the unique triple leaves the table unchanged and is ignored.
`newId` stands for the server-generated row id. -/
def handleAddReaction (rs : List ReactionRow) (newId m u e : String) :
    ReactOutcome × List ReactionRow :=
  if hasReaction rs m u e then (.alreadyPresent, rs)
  else (.inserted, rs ++ [⟨newId, m, u, e⟩])

/-- `handleRemoveReaction(messageId, emoji)` from `src/src/pages/Chat.tsx`
lines 330-347: delete every row matching the exact triple. -/
def handleRemoveReaction (rs : List ReactionRow) (m u e : String) : List ReactionRow :=
  rs.filter fun r => !(r.message_id == m && r.user_id == u && r.emoji == e)

/-- C3: react followed by unreact for the same `(message, user, emoji)`
triple returns the reaction table to the original reaction-absent state;
react when the exact triple already exists is a benign no-op (the
duplicate-key conflict is swallowed, signalled as `alreadyPresent`, not
surfaced as an error); unreact when the triple is absent is a no-op. -/
theorem reaction_toggle_round_trip (rs : List ReactionRow) (newId m u e : String) :
    (hasReaction rs m u e = false →
      handleRemoveReaction (handleAddReaction rs newId m u e).2 m u e = rs)
    ∧ (hasReaction rs m u e = true →
        handleAddReaction rs newId m u e = (.alreadyPresent, rs))
    ∧ (hasReaction rs m u e = false → handleRemoveReaction rs m u e = rs) := by
  have hkeep : hasReaction rs m u e = false → handleRemoveReaction rs m u e = rs := by
    intro h
    unfold hasReaction at h
    unfold handleRemoveReaction
    apply List.filter_eq_self.mpr
    intro r hr
    have := List.any_eq_false.mp h r hr
    simp only [Bool.not_eq_eq_eq_not, Bool.not_true]
    simp only [Bool.not_eq_true] at this
    exact this
  refine ⟨?_, ?_, hkeep⟩
  · intro h
    unfold handleAddReaction
    rw [h]
    simp only [Bool.false_eq_true, if_false]
    unfold handleRemoveReaction
    rw [List.filter_append]
    unfold handleRemoveReaction at hkeep
    rw [hkeep h]
    simp
  · intro h
    unfold handleAddReaction
    rw [h]
    rfl

/-- Witness for `reaction_toggle_round_trip`: on a one-row table for a
different emoji, react-then-unreact of the absent triple restores the
table, and unreact of the absent triple alone is a no-op. -/
theorem reaction_toggle_round_trip_witness :
    (handleRemoveReaction
        (handleAddReaction [⟨"r0", "m1", "u1", "👍"⟩] "r1" "m1" "u1" "❤️").2
        "m1" "u1" "❤️" = [⟨"r0", "m1", "u1", "👍"⟩])
    ∧ handleRemoveReaction [⟨"r0", "m1", "u1", "👍"⟩] "m1" "u1" "❤️" =
        [⟨"r0", "m1", "u1", "👍"⟩] :=
  ⟨(reaction_toggle_round_trip [⟨"r0", "m1", "u1", "👍"⟩] "r1" "m1" "u1" "❤️").1 (by decide),
    (reaction_toggle_round_trip [⟨"r0", "m1", "u1", "👍"⟩] "r1" "m1" "u1" "❤️").2.2 (by decide)⟩

/-! ## Composite send fan-out (Chat.tsx `sendMessage`, lines 461-582) -/

/-- The fields of one `supabase.from('messages').insert({...})` issued by
`sendMessage` (conversation id and sender are fixed by the call site and
omitted). -/
structure MsgInsert where
  content : String
  media_type : Option String
  media_url : Option String
  reply_to_id : Option String
deriving DecidableEq, Repr

/-- `JSON.stringify(imageUrls)` as used for the gallery `media_url`
(`src/src/pages/Chat.tsx` line 521); urls are plain https strings, so the
encoding is quoting plus comma separation. -/
def jsonStringifyArray (us : List String) : String :=
  "[" ++ String.intercalate "," (us.map fun u => "\"" ++ u ++ "\"") ++ "]"

/-- The `fallbackLabel` of `src/src/pages/Chat.tsx` lines 540-541:
`u.type === 'video' ? '🎥 Video' : u.type === 'document' ? '📎 File' : '📎 File'`. -/
def fallbackLabel (ty : String) : String :=
  if ty = "video" then "🎥 Video" else if ty = "document" then "📎 File" else "📎 File"

/-- One iteration of the non-image loop of `src/src/pages/Chat.tsx` lines
536-551, at index `i` for upload `(url, type)`:
`shouldUseCaption = messageContent.length > 0 && imageUrls.length === 0 && i === 0`;
`reply_to_id: i === 0 ? currentReplyToId : null`. -/
def otherMsgOf (messageContent : String) (reply : Option String) (noImages : Bool)
    (pi : Nat × String × String) : MsgInsert :=
  let shouldUseCaption : Bool := decide (0 < messageContent.length) && noImages && pi.1 == 0
  { content := if shouldUseCaption then messageContent else fallbackLabel pi.2.2,
    media_type := some pi.2.2,
    media_url := some pi.2.1,
    reply_to_id := if pi.1 == 0 then reply else none }

/-- The batch of message inserts produced by the media branch of
`sendMessage` (`src/src/pages/Chat.tsx` lines 511-551) for trimmed caption
`messageContent`, reply target `reply`, collected `imageUrls` and
`otherUploads` (url, type) pairs: more than one image becomes a single
`gallery` message over the JSON list, exactly one image a single `image`
message; then one message per non-image upload. -/
def mediaBatch (messageContent : String) (reply : Option String)
    (imageUrls : List String) (otherUploads : List (String × String)) : List MsgInsert :=
  let usesCaptionForMedia : Bool := decide (0 < messageContent.length)
  let imageMsgs : List MsgInsert :=
    match imageUrls with
    | [] => []
    | [u] => [{ content := if usesCaptionForMedia then messageContent else "📷 Photo",
                media_type := some "image", media_url := some u, reply_to_id := reply }]
    | us => [{ content := if usesCaptionForMedia then messageContent else "📷 Photos",
               media_type := some "gallery", media_url := some (jsonStringifyArray us),
               reply_to_id := reply }]
  imageMsgs ++ (otherUploads.enum.map (otherMsgOf messageContent reply imageUrls.isEmpty))

/-! ## Fan-out lemmas -/

theorem string_length_pos (s : String) (h : s ≠ "") : 0 < s.length := by
  cases s with
  | mk data =>
      cases data with
      | nil => exact absurd rfl h
      | cons c cs => simp [String.length]

theorem usesCaption_true (content : String) (h : content ≠ "") :
    decide (0 < content.length) = true :=
  decide_eq_true (string_length_pos content h)

theorem snd_mem_of_mem_enum {α : Type} {l : List α} {x : Nat × α} (h : x ∈ l.enum) :
    x.2 ∈ l := by
  rcases List.mem_enumFrom h with ⟨-, -, heq⟩
  rw [heq]
  exact List.getElem_mem _

theorem countP_map_enumFrom_zero {α : Type} (f : Nat × α → MsgInsert) (p : MsgInsert → Bool)
    (l : List α) : ∀ n : Nat, (∀ (i : Nat) (a : α), n ≤ i → a ∈ l → p (f (i, a)) = false) →
    ((l.enumFrom n).map f).countP p = 0 := by
  induction l with
  | nil => intro n _; rfl
  | cons a t ih =>
      intro n h
      show (((n, a) :: t.enumFrom (n + 1)).map f).countP p = 0
      rw [List.map_cons, List.countP_cons, h n a (Nat.le_refl n) (List.mem_cons_self a t)]
      simp only [Bool.false_eq_true, if_false, Nat.add_zero]
      exact ih (n + 1) fun i a2 hi ha2 => h i a2 (Nat.le_of_succ_le hi) (List.mem_cons_of_mem a ha2)

theorem otherMsgOf_zero (content : String) (reply : Option String) (noImages : Bool)
    (url ty : String) :
    otherMsgOf content reply noImages (0, url, ty) =
      ⟨if content ≠ "" ∧ noImages = true then content else fallbackLabel ty,
        some ty, some url, reply⟩ := by
  unfold otherMsgOf
  by_cases hc : content = ""
  · subst hc
    simp
  · rw [usesCaption_true content hc]
    cases noImages <;> simp [hc]

theorem otherMsgOf_pos (content : String) (reply : Option String) (noImages : Bool)
    (i : Nat) (hi : i ≠ 0) (url ty : String) :
    otherMsgOf content reply noImages (i, url, ty) =
      ⟨fallbackLabel ty, some ty, some url, none⟩ := by
  unfold otherMsgOf
  have h0 : (i == 0) = false := by simp [hi]
  simp [h0]

theorem map_otherMsgOf_enumFrom_pos (content : String) (reply : Option String)
    (noImages : Bool) (l : List (String × String)) :
    ∀ n : Nat, 1 ≤ n →
      (l.enumFrom n).map (otherMsgOf content reply noImages)
        = l.map fun a => ⟨fallbackLabel a.2, some a.2, some a.1, none⟩ := by
  induction l with
  | nil => intro n _; rfl
  | cons a t ih =>
      intro n hn
      show otherMsgOf content reply noImages (n, a) :: _ = _
      rw [show (n, a) = (n, a.1, a.2) from rfl,
        otherMsgOf_pos content reply noImages n (by omega) a.1 a.2, List.map_cons]
      exact congrArg _ (ih (n + 1) (by omega))

theorem mediaBatch_nil_images (content : String) (reply : Option String)
    (others : List (String × String)) :
    mediaBatch content reply [] others = others.enum.map (otherMsgOf content reply true) := rfl

theorem mediaBatch_one_image (content : String) (reply : Option String) (u : String)
    (others : List (String × String)) :
    mediaBatch content reply [u] others =
      ⟨if content = "" then "📷 Photo" else content, some "image", some u, reply⟩
        :: others.enum.map (otherMsgOf content reply false) := by
  unfold mediaBatch
  by_cases hc : content = ""
  · subst hc
    simp [String.length]
  · simp [usesCaption_true content hc, hc]

theorem mediaBatch_many_images (content : String) (reply : Option String) (u v : String)
    (t : List String) (others : List (String × String)) :
    mediaBatch content reply (u :: v :: t) others =
      ⟨if content = "" then "📷 Photos" else content, some "gallery",
        some (jsonStringifyArray (u :: v :: t)), reply⟩
        :: others.enum.map (otherMsgOf content reply false) := by
  unfold mediaBatch
  by_cases hc : content = ""
  · subst hc
    simp [String.length]
  · simp [usesCaption_true content hc, hc]

/-- C4 counterexample: a composite send with exactly one image attachment
and no caption produces a single message whose media-kind is `image`, not
`gallery` — so the claim that all images are always grouped into a message
with a gallery media-kind fails at this input. -/
theorem mediaFanOut_counterexample :
    mediaBatch "" none ["u1"] [] = [⟨"📷 Photo", some "image", some "u1", none⟩]
    ∧ ¬ ∃ m ∈ mediaBatch "" none ["u1"] [], m.media_type = some "gallery" :=
  ⟨rfl, by decide⟩

/-- C4 (amended): in a composite send, all images are grouped into exactly
one message — with media-kind `gallery` holding the JSON-encoded ordered
list of image references when two or more images are attached, and
media-kind `image` holding the single reference when exactly one is.  The
caption is attached to exactly one message of the batch: the image/gallery
message if any images were attached, otherwise the first non-image
message; every other message receives the deterministic placeholder label
for its media kind (`🎥 Video` for videos, `📎 File` otherwise).  Each
non-image attachment becomes its own message.  In particular 3 images +
1 document with caption `trip photos` yields exactly the gallery message
with content `trip photos` and one document message with content
`📎 File`. -/
theorem mediaFanOut_amended :
    (mediaBatch "trip photos" none ["a", "b", "c"] [("d", "document")] =
      [⟨"trip photos", some "gallery", some (jsonStringifyArray ["a", "b", "c"]), none⟩,
        ⟨"📎 File", some "document", some "d", none⟩])
    ∧ ∀ (content : String) (reply : Option String) (imgs : List String)
        (others : List (String × String)),
        (∀ p ∈ others, p.2 ≠ "image" ∧ p.2 ≠ "gallery") →
        ((mediaBatch content reply imgs others).countP
            (fun m => m.media_type == some "gallery") = if 2 ≤ imgs.length then 1 else 0)
        ∧ ((mediaBatch content reply imgs others).countP
            (fun m => m.media_type == some "image") = if imgs.length = 1 then 1 else 0)
        ∧ (∀ m ∈ mediaBatch content reply imgs others, m.media_type = some "gallery" →
            m.media_url = some (jsonStringifyArray imgs)
            ∧ m.content = if content = "" then "📷 Photos" else content)
        ∧ (∀ m ∈ mediaBatch content reply imgs others, m.media_type = some "image" →
            imgs.length = 1 ∧ m.media_url = some (imgs.headD "")
            ∧ m.content = if content = "" then "📷 Photo" else content)
        ∧ (imgs = [] → mediaBatch content reply imgs others =
            match others with
            | [] => []
            | o :: rest =>
                ⟨if content = "" then fallbackLabel o.2 else content, some o.2, some o.1, reply⟩
                  :: rest.map fun a => ⟨fallbackLabel a.2, some a.2, some a.1, none⟩)
        ∧ (imgs ≠ [] → (mediaBatch content reply imgs others).drop 1 =
            match others with
            | [] => []
            | o :: rest =>
                ⟨fallbackLabel o.2, some o.2, some o.1, reply⟩
                  :: rest.map fun a => ⟨fallbackLabel a.2, some a.2, some a.1, none⟩)
        ∧ (content ≠ "" → content ≠ "🎥 Video" → content ≠ "📎 File" →
            (imgs ≠ [] ∨ others ≠ []) →
            (mediaBatch content reply imgs others).countP
              (fun m => m.content == content) = 1) := by
  refine ⟨rfl, ?_⟩
  intro content reply imgs others honest
  have hTypeOther : ∀ (b : Bool) (i : Nat) (a : String × String),
      (otherMsgOf content reply b (i, a)).media_type = some a.2 := fun _ _ _ => rfl
  have hGalleryOther : ∀ (b : Bool) (i : Nat) (a : String × String), a ∈ others →
      ((otherMsgOf content reply b (i, a)).media_type == some "gallery") = false := by
    intro b i a ha
    rw [hTypeOther]
    simp [(honest a ha).2]
  have hImageOther : ∀ (b : Bool) (i : Nat) (a : String × String), a ∈ others →
      ((otherMsgOf content reply b (i, a)).media_type == some "image") = false := by
    intro b i a ha
    rw [hTypeOther]
    simp [(honest a ha).1]
  have hCntG : ∀ b : Bool, ((others.enum.map (otherMsgOf content reply b)).countP
      (fun m => m.media_type == some "gallery")) = 0 := fun b =>
    countP_map_enumFrom_zero _ _ others 0 fun i a _ ha => hGalleryOther b i a ha
  have hCntI : ∀ b : Bool, ((others.enum.map (otherMsgOf content reply b)).countP
      (fun m => m.media_type == some "image")) = 0 := fun b =>
    countP_map_enumFrom_zero _ _ others 0 fun i a _ ha => hImageOther b i a ha
  have hContentOther : ∀ (b : Bool) (i : Nat) (a : String × String),
      (b = false ∨ 1 ≤ i) →
      (otherMsgOf content reply b (i, a)).content = fallbackLabel a.2 := by
    intro b i a hcase
    rcases hcase with rfl | hi
    · unfold otherMsgOf
      simp
    · rw [show (i, a) = (i, a.1, a.2) from rfl,
        otherMsgOf_pos content reply b i (by omega) a.1 a.2]
  have hFallbackNe : ∀ ty : String, content ≠ "🎥 Video" → content ≠ "📎 File" →
      (fallbackLabel ty == content) = false := by
    intro ty hv hd
    have hv2 : "🎥 Video" ≠ content := Ne.symm hv
    have hd2 : "📎 File" ≠ content := Ne.symm hd
    unfold fallbackLabel
    by_cases h1 : ty = "video"
    · simp [h1, hv2]
    · by_cases h2 : ty = "document" <;> simp [h1, h2, hd2]
  refine ⟨?_, ?_, ?_, ?_, ?_, ?_, ?_⟩
  · -- gallery-kind count
    match imgs with
    | [] => simpa [mediaBatch_nil_images] using hCntG true
    | [u] =>
        rw [mediaBatch_one_image, List.countP_cons, hCntG false]
        rfl
    | u :: v :: t =>
        rw [mediaBatch_many_images, List.countP_cons, hCntG false]
        simp [List.length_cons]
  · -- image-kind count
    match imgs with
    | [] => simpa [mediaBatch_nil_images] using hCntI true
    | [u] =>
        rw [mediaBatch_one_image, List.countP_cons, hCntI false]
        rfl
    | u :: v :: t =>
        rw [mediaBatch_many_images, List.countP_cons, hCntI false]
        simp [List.length_cons]
  · -- gallery message holds the ordered list and the caption rule
    intro m hm hgal
    match imgs, hm with
    | [], hm =>
        rw [mediaBatch_nil_images] at hm
        rcases List.mem_map.mp hm with ⟨pi, hpi, rfl⟩
        rw [show pi = (pi.1, pi.2) from rfl, hTypeOther] at hgal
        exact absurd (Option.some.injEq _ _ ▸ hgal)
          (by simpa using (honest pi.2 (snd_mem_of_mem_enum hpi)).2)
    | [u], hm =>
        rw [mediaBatch_one_image] at hm
        rcases List.mem_cons.mp hm with rfl | hm
        · exact absurd hgal (by simp)
        · rcases List.mem_map.mp hm with ⟨pi, hpi, rfl⟩
          rw [show pi = (pi.1, pi.2) from rfl, hTypeOther] at hgal
          exact absurd (Option.some.injEq _ _ ▸ hgal)
            (by simpa using (honest pi.2 (snd_mem_of_mem_enum hpi)).2)
    | u :: v :: t, hm =>
        rw [mediaBatch_many_images] at hm
        rcases List.mem_cons.mp hm with rfl | hm
        · exact ⟨rfl, rfl⟩
        · rcases List.mem_map.mp hm with ⟨pi, hpi, rfl⟩
          rw [show pi = (pi.1, pi.2) from rfl, hTypeOther] at hgal
          exact absurd (Option.some.injEq _ _ ▸ hgal)
            (by simpa using (honest pi.2 (snd_mem_of_mem_enum hpi)).2)
  · -- image message: exactly one image, bare reference, caption rule
    intro m hm himg
    match imgs, hm with
    | [], hm =>
        rw [mediaBatch_nil_images] at hm
        rcases List.mem_map.mp hm with ⟨pi, hpi, rfl⟩
        rw [show pi = (pi.1, pi.2) from rfl, hTypeOther] at himg
        exact absurd (Option.some.injEq _ _ ▸ himg)
          (by simpa using (honest pi.2 (snd_mem_of_mem_enum hpi)).1)
    | [u], hm =>
        rw [mediaBatch_one_image] at hm
        rcases List.mem_cons.mp hm with rfl | hm
        · exact ⟨rfl, rfl, rfl⟩
        · rcases List.mem_map.mp hm with ⟨pi, hpi, rfl⟩
          rw [show pi = (pi.1, pi.2) from rfl, hTypeOther] at himg
          exact absurd (Option.some.injEq _ _ ▸ himg)
            (by simpa using (honest pi.2 (snd_mem_of_mem_enum hpi)).1)
    | u :: v :: t, hm =>
        rw [mediaBatch_many_images] at hm
        rcases List.mem_cons.mp hm with rfl | hm
        · exact absurd himg (by simp)
        · rcases List.mem_map.mp hm with ⟨pi, hpi, rfl⟩
          rw [show pi = (pi.1, pi.2) from rfl, hTypeOther] at himg
          exact absurd (Option.some.injEq _ _ ▸ himg)
            (by simpa using (honest pi.2 (snd_mem_of_mem_enum hpi)).1)
  · -- no images: first non-image message carries the caption (if any) and
    -- the reply; later ones carry the placeholder label and no reply
    intro h0
    subst h0
    rw [mediaBatch_nil_images]
    match others with
    | [] => rfl
    | o :: rest =>
        show otherMsgOf content reply true (0, o) :: _ = _
        rw [show (0, o) = ((0 : Nat), o.1, o.2) from rfl, otherMsgOf_zero,
          map_otherMsgOf_enumFrom_pos content reply true rest 1 (Nat.le_refl 1)]
        by_cases hc : content = "" <;> simp [hc]
  · -- images present: the non-image fan-out after the image message
    intro h0
    match imgs, h0 with
    | [u], _ =>
        rw [mediaBatch_one_image]
        simp only [List.drop_succ_cons, List.drop_zero]
        match others with
        | [] => rfl
        | o :: rest =>
            show otherMsgOf content reply false (0, o) :: _ = _
            rw [show (0, o) = ((0 : Nat), o.1, o.2) from rfl, otherMsgOf_zero,
              map_otherMsgOf_enumFrom_pos content reply false rest 1 (Nat.le_refl 1)]
            simp
    | u :: v :: t, _ =>
        rw [mediaBatch_many_images]
        simp only [List.drop_succ_cons, List.drop_zero]
        match others with
        | [] => rfl
        | o :: rest =>
            show otherMsgOf content reply false (0, o) :: _ = _
            rw [show (0, o) = ((0 : Nat), o.1, o.2) from rfl, otherMsgOf_zero,
              map_otherMsgOf_enumFrom_pos content reply false rest 1 (Nat.le_refl 1)]
            simp
  · -- the caption appears on exactly one message of the batch
    intro hc hv hd hne
    have hTailZero : ∀ (b : Bool) (l : List (String × String)), (∀ a ∈ l, a ∈ others) →
        ∀ n : Nat, (b = false ∨ 1 ≤ n) →
        ((l.enumFrom n).map (otherMsgOf content reply b)).countP
          (fun m => m.content == content) = 0 := by
      intro b l hsub n hcase
      apply countP_map_enumFrom_zero
      intro i a hi _
      have : (otherMsgOf content reply b (i, a)).content = fallbackLabel a.2 :=
        hContentOther b i a (hcase.imp id fun h => Nat.le_trans h hi)
      rw [this]
      exact hFallbackNe a.2 hv hd
    have hTailZero0 : ((others.enum.map (otherMsgOf content reply false)).countP
        (fun m => m.content == content)) = 0 :=
      hTailZero false others (fun _ ha => ha) 0 (Or.inl rfl)
    rcases imgs with _ | ⟨u, us⟩
    · rcases others with _ | ⟨o, rest⟩
      · rcases hne with h | h <;> exact absurd rfl h
      · rw [mediaBatch_nil_images]
        show ((otherMsgOf content reply true (0, o) :: _).countP _) = 1
        rw [List.countP_cons, show (0, o) = ((0 : Nat), o.1, o.2) from rfl, otherMsgOf_zero,
          hTailZero true rest (fun a ha => List.mem_cons_of_mem o ha) 1 (Or.inr (Nat.le_refl 1))]
        simp [hc]
    · rcases us with _ | ⟨v, t⟩
      · rw [mediaBatch_one_image, List.countP_cons, hTailZero0]
        simp [hc]
      · rw [mediaBatch_many_images, List.countP_cons, hTailZero0]
        simp [hc]

/-- Witness for `mediaFanOut_amended`: two images + one document with
caption `hey` — the caption appears on exactly one message and exactly one
gallery message exists. -/
theorem mediaFanOut_amended_witness :
    ((mediaBatch "hey" none ["i1", "i2"] [("d", "document")]).countP
        (fun m => m.content == "hey") = 1)
    ∧ ((mediaBatch "hey" none ["i1", "i2"] [("d", "document")]).countP
        (fun m => m.media_type == some "gallery") = 1) := by
  have h := mediaFanOut_amended.2 "hey" none ["i1", "i2"] [("d", "document")] (by decide)
  refine ⟨h.2.2.2.2.2.2 (by decide) (by decide) (by decide) (Or.inl (by decide)), ?_⟩
  simpa using h.1

/-- C5 counterexample: a composite send of one image and one document
while replying attaches the reply reference to two messages of the batch,
not exactly one. -/
theorem replyLinkage_counterexample :
    mediaBatch "" (some "r0") ["u"] [("d", "document")] =
      [⟨"📷 Photo", some "image", some "u", some "r0"⟩,
        ⟨"📎 File", some "document", some "d", some "r0"⟩]
    ∧ ((mediaBatch "" (some "r0") ["u"] [("d", "document")]).filter
        (fun m => m.reply_to_id == some "r0")).length = 2 :=
  ⟨rfl, by decide⟩

theorem map_reply_others (content : String) (reply : Option String) (b : Bool)
    (others : List (String × String)) :
    (others.enum.map (otherMsgOf content reply b)).map (fun m => m.reply_to_id)
      = match others with
        | [] => []
        | _ :: rest => reply :: rest.map (fun _ => (none : Option String)) := by
  rcases others with _ | ⟨o, rest⟩
  · rfl
  · show ((otherMsgOf content reply b (0, o)) :: (rest.enumFrom 1).map _).map _ = _
    rw [map_otherMsgOf_enumFrom_pos content reply b rest 1 (Nat.le_refl 1)]
    have hhead : (otherMsgOf content reply b (0, o)).reply_to_id = reply := rfl
    simp [hhead, List.map_map]
    have hcomp : ((fun (m : MsgInsert) => m.reply_to_id) ∘ fun (a : String × String) =>
        (⟨fallbackLabel a.2, some a.2, some a.1, none⟩ : MsgInsert))
          = fun _ => (none : Option String) := rfl
    rw [hcomp]
    simp

/-- C5 (amended): in a composite send issued while replying, the reply-to
reference is attached to the image (single-image or gallery) message when
any images are present, and to the first non-image message when any
non-image attachments are present; every later non-image message has a
null reply-to.  So the reference lands on exactly two messages when the
batch mixes images with non-images, and on exactly one otherwise. -/
theorem replyLinkage_amended (content : String) (reply : Option String)
    (imgs : List String) (others : List (String × String)) :
    (mediaBatch content reply imgs others).map (fun m => m.reply_to_id)
      = (if imgs.isEmpty then [] else [reply])
        ++ match others with
           | [] => []
           | _ :: rest => reply :: rest.map (fun _ => (none : Option String)) := by
  rcases imgs with _ | ⟨u, us⟩
  · rw [mediaBatch_nil_images, map_reply_others]
    rfl
  · rcases us with _ | ⟨v, t⟩
    · rw [mediaBatch_one_image, List.map_cons, map_reply_others]
      rfl
    · rw [mediaBatch_many_images, List.map_cons, map_reply_others]
      rfl

/-! ## Client message list and realtime merge (Chat.tsx) -/

/-- The `MessageData` row shape of `src/src/components/chat/MessageBubble.tsx`
lines 11-21 (a row of `public.messages` as fetched by the client). -/
structure MessageData where
  id : String
  content : String
  sender_id : String
  created_at : String
  is_read : Bool
  media_url : Option String
  media_type : Option String
  deleted_at : Option String
  reply_to_id : Option String
deriving DecidableEq, Repr

/-- The realtime `messages` INSERT handler of `src/src/pages/Chat.tsx`
lines 362-379: `setMessages((prev) => [...prev, newMsg])` — the incoming
message is appended to the in-memory list. -/
def onMessageInsert (msgs : List MessageData) (newMsg : MessageData) : List MessageData :=
  msgs ++ [newMsg]

/-- The realtime `messages` UPDATE handler of `src/src/pages/Chat.tsx`
lines 380-392: replace the entry with the matching id in place. -/
def onMessageUpdate (msgs : List MessageData) (updatedMsg : MessageData) : List MessageData :=
  msgs.map fun m => if m.id == updatedMsg.id then updatedMsg else m

/-- C6 counterexample: delivering an Insert event for a message whose id
is already in the list yields two entries with that id — the handler has
no presence check. -/
theorem realtimeInsert_counterexample :
    ((onMessageInsert [⟨"m1", "hi", "s", "t0", false, none, none, none, none⟩]
        ⟨"m1", "hi", "s", "t0", false, none, none, none, none⟩).filter
      (fun x => x.id == "m1")).length = 2 := by decide

/-- C6 (amended): the Insert handler appends the incoming message to the
in-memory list unconditionally — it performs no duplicate-id check, so an
Insert whose id is already present always increases the number of entries
with that id by one (a duplicate entry when one was already there). -/
theorem realtimeInsert_amended (msgs : List MessageData) (m : MessageData) :
    onMessageInsert msgs m = msgs ++ [m]
    ∧ (onMessageInsert msgs m).countP (fun x => x.id == m.id)
        = (msgs.countP fun x => x.id == m.id) + 1 := by
  refine ⟨rfl, ?_⟩
  unfold onMessageInsert
  rw [List.countP_append]
  simp [List.countP_cons]

/-! ## Story expiry and visibility (StoriesCarousel.tsx) -/

/-- A row of `public.stories` as consumed by the carousel; `expires_at` is
a timestamp (modelled in milliseconds). -/
structure Story where
  id : String
  user_id : String
  expires_at : Nat
  visibility : String
deriving DecidableEq, Repr

/-- The server-side filter of `fetchStories`
(`src/src/components/StoriesCarousel.tsx` line 152):
`.gte('expires_at', new Date().toISOString())` — keep rows whose
`expires_at` is greater than or equal to the fetch time. -/
def fetchStoriesRows (stories : List Story) (now : Nat) : List Story :=
  stories.filter fun s => decide (now ≤ s.expires_at)

/-- The story tabs of the carousel. -/
inductive StoryTab where
  | world
  | friends
deriving DecidableEq, Repr

/-- The client tab filter of `src/src/components/StoriesCarousel.tsx`
lines 212-221: world tab keeps `visibility === 'world'`; friends tab keeps
`visibility === 'friends'` authored by a friend or by the viewer. -/
def tabFilterStory (tab : StoryTab) (viewerId : String) (friendIds : List String)
    (s : Story) : Bool :=
  match tab with
  | .world => s.visibility == "world"
  | .friends => s.visibility == "friends" &&
      (friendIds.contains s.user_id || s.user_id == viewerId)

/-- The visibility-filtered story listing shown to a viewer: the fetched
(non-`lt`-expired) rows restricted to the active tab. -/
def visibleStories (stories : List Story) (now : Nat) (tab : StoryTab)
    (viewerId : String) (friendIds : List String) : List Story :=
  (fetchStoriesRows stories now).filter (tabFilterStory tab viewerId friendIds)

/-- C7 counterexample: at the exact expiry instant (`now = expires_at`,
so `now ≥ expires_at` holds) the story is still included in the listing —
the fetch filter is `expires_at ≥ now`, not strict. -/
theorem storyExpiry_counterexample :
    (5 : Nat) ≥ (⟨"s1", "u", 5, "world"⟩ : Story).expires_at
    ∧ (⟨"s1", "u", 5, "world"⟩ : Story) ∈
        visibleStories [⟨"s1", "u", 5, "world"⟩] 5 .world "v" [] := by
  exact ⟨by decide, by decide⟩

/-- C7 (amended): every listed story satisfies `now ≤ expires_at` at fetch
time, and a story with `expires_at < now` (strictly past its expiry) is
excluded from every visibility-filtered listing regardless of its
visibility value; at `now = expires_at` exactly, the story is still
shown. -/
theorem storyExpiry_amended (stories : List Story) (now : Nat) (tab : StoryTab)
    (viewerId : String) (friendIds : List String) (s : Story) :
    (s ∈ visibleStories stories now tab viewerId friendIds → now ≤ s.expires_at)
    ∧ (s.expires_at < now → s ∉ visibleStories stories now tab viewerId friendIds) := by
  have hfwd : s ∈ visibleStories stories now tab viewerId friendIds → now ≤ s.expires_at := by
    intro hmem
    unfold visibleStories at hmem
    have h1 : s ∈ fetchStoriesRows stories now := List.mem_of_mem_filter hmem
    unfold fetchStoriesRows at h1
    exact of_decide_eq_true (List.mem_filter.mp h1).2
  refine ⟨hfwd, ?_⟩
  intro hlt hmem
  exact absurd (hfwd hmem) (by omega)

/-- Witness for `storyExpiry_amended`: an unexpired story is listed and
its expiry bound holds; a strictly expired story is excluded. -/
theorem storyExpiry_amended_witness :
    (3 : Nat) ≤ (⟨"s1", "u", 10, "world"⟩ : Story).expires_at
    ∧ (⟨"s2", "u", 5, "world"⟩ : Story) ∉
        visibleStories [⟨"s2", "u", 5, "world"⟩] 7 .world "v" [] :=
  ⟨(storyExpiry_amended [⟨"s1", "u", 10, "world"⟩] 3 .world "v" [] _).1 (by decide),
    (storyExpiry_amended [⟨"s2", "u", 5, "world"⟩] 7 .world "v" [] _).2 (by decide)⟩

/-! ## Soft delete and rendering (MessageBubble.tsx, ChatList.tsx) -/

/-- Model of the JavaScript `String.prototype.trim()` used throughout the
client: strip leading and trailing whitespace.  (Defined by structural
recursion over the character list so that concrete instances evaluate.) -/
def trimStr (s : String) : String :=
  ⟨(((s.data.dropWhile Char.isWhitespace).reverse).dropWhile Char.isWhitespace).reverse⟩

/-- The literal tombstone text of `src/src/components/chat/MessageBubble.tsx`
lines 114 and 130. -/
def tombstoneText : String := "🚫 This message was deleted"

/-- The placeholder literals of `src/src/components/chat/MessageBubble.tsx`
line 67. -/
def placeholderSet : List String := ["📷 Photo", "📷 Photos", "🎥 Video", "📎 File"]

/-- `shouldShowText` of `src/src/components/chat/MessageBubble.tsx` line 68:
`message.content?.trim().length > 0 && !placeholders.has(message.content)`. -/
def shouldShowText (content : String) : Bool :=
  decide (0 < (trimStr content).length) && !(placeholderSet.contains content)

/-- The rendered reply preview block of
`src/src/components/chat/MessageBubble.tsx` lines 118-135: label line and
preview line; a soft-deleted target renders the tombstone text instead of
its content. -/
structure ReplyRender where
  label : String
  preview : String
deriving DecidableEq, Repr

/-- Lines 125-133 of `src/src/components/chat/MessageBubble.tsx`. -/
def renderReplyPreview (currentUserId : String) (replyTo : MessageData) : ReplyRender :=
  { label := if replyTo.sender_id == currentUserId then "You" else "Reply",
    preview := if replyTo.deleted_at.isSome then tombstoneText
      else replyTo.content.take 50 ++ (if 50 < replyTo.content.length then "..." else "") }

/-- What a `MessageBubble` shows for one message: either the deleted
placeholder alone, or the normal body (optional reply preview, the media
refs handed to `MessageMedia`, and the optional text line). -/
inductive BubbleBody where
  | deletedPlaceholder (text : String)
  | normal (replyPreview : Option ReplyRender) (mediaUrl : Option String)
      (mediaType : Option String) (text : Option String)
deriving DecidableEq, Repr

/-- The body branch of `src/src/components/chat/MessageBubble.tsx` lines
113-142: `isDeleted` renders only the tombstone paragraph; otherwise the
reply preview (if a target was found), the media and the text line are
rendered. -/
def renderMessageBubble (currentUserId : String) (message : MessageData)
    (replyToMessage : Option MessageData) : BubbleBody :=
  if message.deleted_at.isSome then .deletedPlaceholder tombstoneText
  else .normal (replyToMessage.map (renderReplyPreview currentUserId))
    message.media_url message.media_type
    (if shouldShowText message.content then some message.content else none)

/-- `handleDeleteMessage` of `src/src/pages/Chat.tsx` lines 292-306, local
state update: set `deleted_at` on the matching message, leaving every
other field (including every `reply_to_id`) as is. -/
def handleDeleteMessage (msgs : List MessageData) (messageId now : String) :
    List MessageData :=
  msgs.map fun m => if m.id == messageId then { m with deleted_at := some now } else m

/-- The conversation-list last-message preview line of
`src/src/components/ChatList.tsx` lines 267-271:
`` `${sender}: ${convo.lastMessage.content}` `` — no `deleted_at` check. -/
def chatListPreviewText (currentUserId senderName : String)
    (lastMessage : MessageData) : String :=
  (if lastMessage.sender_id == currentUserId then "You" else senderName)
    ++ ": " ++ lastMessage.content

/-- C8 counterexample: the conversation-list preview is a reader that
renders the original body of a soft-deleted message, not the tombstone. -/
theorem tombstone_counterexample :
    (⟨"m1", "secret", "s", "t", false, none, none, some "d", none⟩
        : MessageData).deleted_at.isSome = true
    ∧ chatListPreviewText "me" "Bob"
        ⟨"m1", "secret", "s", "t", false, none, none, some "d", none⟩ = "Bob: secret"
    ∧ "Bob: secret" ≠ tombstoneText := by
  exact ⟨rfl, rfl, by decide⟩

/-- C8 (amended): in the conversation view, every message with its
soft-delete timestamp set renders only the deterministic tombstone
placeholder — never its body text or media — including when it is the
target of an existing reply, where the replying message's preview switches
to the tombstone text while the stored `reply_to_id` links are left intact
by the delete; the conversation-list last-message preview, however, does
not apply the tombstone and shows the original body. -/
theorem tombstone_amended :
    (∀ (uid : String) (m : MessageData) (r : Option MessageData),
      m.deleted_at.isSome = true →
        renderMessageBubble uid m r = .deletedPlaceholder tombstoneText)
    ∧ (∀ (uid : String) (target : MessageData), target.deleted_at.isSome = true →
        (renderReplyPreview uid target).preview = tombstoneText)
    ∧ (∀ (msgs : List MessageData) (mid now : String),
        (handleDeleteMessage msgs mid now).map (fun m => (m.id, m.reply_to_id))
          = msgs.map fun m => (m.id, m.reply_to_id)) := by
  refine ⟨?_, ?_, ?_⟩
  · intro uid m r h
    unfold renderMessageBubble
    rw [h]
    rfl
  · intro uid target h
    unfold renderReplyPreview
    rw [h]
    rfl
  · intro msgs mid now
    unfold handleDeleteMessage
    rw [List.map_map]
    have hcomp : ((fun (m : MessageData) => (m.id, m.reply_to_id)) ∘ fun m =>
        if m.id == mid then { m with deleted_at := some now } else m)
          = fun m => (m.id, m.reply_to_id) := by
      funext m
      by_cases h : m.id = mid <;> simp [h]
    rw [hcomp]

/-- Witness for `tombstone_amended`: a concrete deleted message renders
the tombstone both as a bubble and as a reply-preview target. -/
theorem tombstone_amended_witness :
    renderMessageBubble "me"
        ⟨"m1", "secret", "s", "t", false, none, none, some "d", none⟩ none
      = .deletedPlaceholder tombstoneText
    ∧ (renderReplyPreview "me"
        ⟨"m1", "secret", "s", "t", false, none, none, some "d", none⟩).preview
      = tombstoneText :=
  ⟨tombstone_amended.1 "me" ⟨"m1", "secret", "s", "t", false, none, none, some "d", none⟩
      none rfl,
    tombstone_amended.2.1 "me"
      ⟨"m1", "secret", "s", "t", false, none, none, some "d", none⟩ rfl⟩

/-! ## Display-name cooldown (AccountSettings.tsx) -/

/-- `NAME_CHANGE_COOLDOWN_HOURS = 12` from
`src/src/components/AccountSettings.tsx` line 32, converted to the
millisecond offset used by `updateCountdown` (line 76). -/
def nameChangeCooldownMs : Nat := 12 * 60 * 60 * 1000

/-- The profile fields touched by the name-change flow
(`src/src/components/AccountSettings.tsx` lines 12-18). -/
structure ProfileSettings where
  full_name : Option String
  last_name_change : Option Nat
deriving DecidableEq, Repr

/-- `updateCountdown` of `src/src/components/AccountSettings.tsx` lines
68-90: with no recorded change the name may be changed; otherwise the
change is allowed exactly when `nextAllowed - now ≤ 0`, i.e. when
`last + 12h ≤ now`. -/
def canChangeName (p : ProfileSettings) (now : Nat) : Bool :=
  match p.last_name_change with
  | none => true
  | some last => decide (last + nameChangeCooldownMs ≤ now)

/-- The rejection kinds of `handleNameChange`
(`src/src/components/AccountSettings.tsx` lines 147-156): empty name, or
the cooldown toast `You can only change your name once every 12 hours.` -/
inductive NameChangeError where
  | emptyName
  | cooldownActive
deriving DecidableEq, Repr

/-- `handleNameChange` of `src/src/components/AccountSettings.tsx` lines
147-184: reject an empty trimmed name; reject while the cooldown is
active (no update is issued, the profile is unchanged); otherwise update
`full_name` and set `last_name_change` to the mutation time. -/
def handleNameChange (p : ProfileSettings) (newName : String) (now : Nat) :
    Except NameChangeError ProfileSettings :=
  if (trimStr newName) == "" then .error .emptyName
  else if !(canChangeName p now) then .error .cooldownActive
  else .ok { full_name := some (trimStr newName), last_name_change := some now }

/-- C9: a display-name update attempted strictly less than 12 hours after
the last change is rejected with the cooldown error and issues no profile
update; an update attempted 12 hours or more after the last change
succeeds and sets the last-change timestamp to the mutation time. -/
theorem nameCooldown_enforced (p : ProfileSettings) (newName : String) (now last : Nat)
    (hlast : p.last_name_change = some last) (hname : (trimStr newName) ≠ "") :
    (now < last + nameChangeCooldownMs →
      handleNameChange p newName now = .error .cooldownActive)
    ∧ (last + nameChangeCooldownMs ≤ now →
      handleNameChange p newName now =
        .ok { full_name := some (trimStr newName), last_name_change := some now }) := by
  have hn : ((trimStr newName) == "") = false := by simp [hname]
  constructor
  · intro hlt
    have hcan : decide (last + nameChangeCooldownMs ≤ now) = false :=
      decide_eq_false (by omega)
    unfold handleNameChange canChangeName
    simp [hn, hlast, hcan]
  · intro hle
    have hcan : decide (last + nameChangeCooldownMs ≤ now) = true := decide_eq_true hle
    unfold handleNameChange canChangeName
    simp [hn, hlast, hcan]

/-- Witness for `nameCooldown_enforced`: changing the name at time 0,
retrying one hour later is rejected with the cooldown error; retrying
thirteen hours later succeeds and stamps the mutation time. -/
theorem nameCooldown_enforced_witness :
    handleNameChange ⟨some "Old", some 0⟩ "New" 3600000 = .error .cooldownActive
    ∧ handleNameChange ⟨some "Old", some 0⟩ "New" 46800000 =
        .ok ⟨some "New", some 46800000⟩ := by
  constructor
  · exact (nameCooldown_enforced ⟨some "Old", some 0⟩ "New" 3600000 0 rfl
      (by decide)).1 (by decide)
  · have h := (nameCooldown_enforced ⟨some "Old", some 0⟩ "New" 46800000 0 rfl
      (by decide)).2 (by decide)
    exact h

/-! ## Conversation timestamp bump on send (Chat.tsx `sendMessage`) -/

/-- The client state `sendMessage` reads and writes: the input field, the
selected (already uploaded and classified) attachments, the local message
inserts issued so far, the conversation `updated_at` column, and the
reply target. -/
structure ChatSendState where
  newMessage : String
  imageUrls : List String
  otherUploads : List (String × String)
  messages : List MsgInsert
  conv_updated_at : String
  replyingTo : Option String
deriving DecidableEq, Repr

/-- `sendMessage` of `src/src/pages/Chat.tsx` lines 461-582.  The guard
returns unchanged when the trimmed input is empty and no files are
selected.  Otherwise: with files, the media fan-out batch is inserted
(insert failures there are caught and swallowed) and the selection is
cleared; without files, the single text insert is issued — on failure the
text is restored to the input field and no message row is added
(`textInsertOk` models whether that insert succeeded).  In every non-guard
case the final step sets the conversation `updated_at` to the current
time, unconditionally. -/
def sendMessage (st : ChatSendState) (now : String) (textInsertOk : Bool) : ChatSendState :=
  if (trimStr st.newMessage) == "" && st.imageUrls.isEmpty && st.otherUploads.isEmpty then st
  else
    let messageContent := (trimStr st.newMessage)
    let currentReplyToId := st.replyingTo
    if !(st.imageUrls.isEmpty && st.otherUploads.isEmpty) then
      { newMessage := "", imageUrls := [], otherUploads := [],
        messages := st.messages ++
          mediaBatch messageContent currentReplyToId st.imageUrls st.otherUploads,
        conv_updated_at := now, replyingTo := none }
    else
      { newMessage := if textInsertOk then "" else messageContent,
        imageUrls := [], otherUploads := [],
        messages := if textInsertOk
          then st.messages ++ [⟨messageContent, none, none, currentReplyToId⟩]
          else st.messages,
        conv_updated_at := now, replyingTo := none }

/-- C10: every completed `sendMessage` with non-empty input sets the
conversation's `updated_at` to the current time unconditionally —
including when the text insert failed, in which case the failed text is
restored to the input field and no message row was added, yet the
last-activity timestamp is still bumped. -/
theorem failedSend_bumps_timestamp (st : ChatSendState) (now : String) (ok : Bool)
    (hinput : ¬((trimStr st.newMessage) = "" ∧ st.imageUrls = [] ∧ st.otherUploads = [])) :
    (sendMessage st now ok).conv_updated_at = now
    ∧ (ok = false → st.imageUrls = [] → st.otherUploads = [] →
        (sendMessage st now ok).newMessage = (trimStr st.newMessage)
        ∧ (sendMessage st now ok).messages = st.messages) := by
  have hguard : ((trimStr st.newMessage) == "" && st.imageUrls.isEmpty
      && st.otherUploads.isEmpty) = false := by
    by_contra h
    rw [Bool.not_eq_false] at h
    simp only [Bool.and_eq_true, beq_iff_eq, List.isEmpty_iff] at h
    exact hinput ⟨h.1.1, h.1.2, h.2⟩
  constructor
  · unfold sendMessage
    rw [hguard]
    simp only [Bool.false_eq_true, if_false]
    by_cases hfiles : (st.imageUrls.isEmpty && st.otherUploads.isEmpty) = true
    · rw [hfiles]
      rfl
    · rw [Bool.not_eq_true] at hfiles
      rw [hfiles]
      rfl
  · intro hok himg hoth
    subst hok
    unfold sendMessage
    rw [hguard]
    simp [himg, hoth]

/-- Witness for `failedSend_bumps_timestamp`: a failed text send from a
concrete state still bumps the conversation timestamp, while the text is
restored and no message row is added. -/
theorem failedSend_bumps_timestamp_witness :
    (sendMessage ⟨"hi there ", [], [], [], "t0", none⟩ "t1" false).conv_updated_at = "t1"
    ∧ (sendMessage ⟨"hi there ", [], [], [], "t0", none⟩ "t1" false).newMessage = "hi there"
    ∧ (sendMessage ⟨"hi there ", [], [], [], "t0", none⟩ "t1" false).messages = [] := by
  have h := failedSend_bumps_timestamp ⟨"hi there ", [], [], [], "t0", none⟩ "t1" false
    (by intro h; exact absurd h.1 (by decide))
  have h2 := h.2 rfl rfl rfl
  exact ⟨h.1, by rw [h2.1]; decide, h2.2⟩

end Chatshot
